import Mathlib

/-!
Verification development for the `seo` backend.

Shallow embedding of the repository's pure logic in Lean 4:
* `scorer/scoring.py` — heuristic sub-scores and the overall score,
* `scorer/train_model.py` — the hand-written label heuristic,
* `scorer/features.py` and `scorer/api.py` — feature extraction and prediction,
* `monitor/jobs.py` — the watch-URL store and the monitoring cycle,
* `schedule/api.py` — the posting-slot search,
* `generator/llm_client.py` — the deterministic mock fallback.

Python floats are modelled as exact rationals (`ℚ`); Python ints as `ℤ`.
External effects (HTTP, the joblib model, the `textstat` readability call,
the OpenAI SDK) are modelled as explicit function parameters, so every
definition below is executable.
-/

set_option autoImplicit false

namespace Seo

/-! ### scorer/scoring.py -/

/-- Python `str.strip()` (no argument): drop leading and trailing
whitespace.  Implemented over the character list so that it reduces in the
kernel. -/
def pyStrip (s : String) : String :=
  String.mk (((s.data.dropWhile Char.isWhitespace).reverse.dropWhile
    Char.isWhitespace).reverse)

/-- Python `clamp(x, lo, hi) = max(lo, min(hi, x))`. -/
def clampLoHi (lo hi x : ℚ) : ℚ := max lo (min hi x)

/-- Python `clamp` at its Python default arguments `lo=0.0`, `hi=100.0`. -/
def clamp (x : ℚ) : ℚ := clampLoHi 0 100 x

/-- The typed view of the analyzer features dict read by `compute_subscores`.
`title` / `meta_description` are `Option` because the dict value may be
missing or `None` (the code applies `or ""`).  `headings` keeps only the
`"tag"` entry of each heading dict, which is all the code reads.  `flesch`
stands for `float(features.get("readability", {}).get("flesch", 0.0) or 0.0)`. -/
structure Features where
  word_count : ℤ
  title : Option String
  meta_description : Option String
  headings : List String
  images_missing_alt : ℤ
  links_count : ℤ
  has_schema : Bool
  flesch : ℚ

/-- Word-count component of the content score. -/
def wcScore (wc : ℤ) : ℚ :=
  if 1200 ≤ wc then 100
  else if 700 ≤ wc then 85
  else if 300 ≤ wc then 65
  else if 150 ≤ wc then 40
  else 10

/-- Readability component of the content score. -/
def readScore (flesch : ℚ) : ℚ :=
  if 60 ≤ flesch then 100 else if 40 ≤ flesch then 70 else 40

/-- Python `h1_count = sum(1 for h in headings if h.get("tag","").lower() == "h1")`. -/
def h1Count (headings : List String) : ℕ :=
  (headings.filter (fun h => h.toLower = "h1")).length

/-- Python `h_score = 100 if h1_count >= 1 else 40`. -/
def hScore (headings : List String) : ℚ := if 1 ≤ h1Count headings then 100 else 40

/-- Python `schema_score = 100 if has_schema else 60`. -/
def schemaScore (has_schema : Bool) : ℚ := if has_schema then 100 else 60

/-- Python `img_score = 100 if images_missing == 0 else max(20, 100 - images_missing * 10)`. -/
def imgScore (m : ℤ) : ℚ := if m = 0 then 100 else max 20 (100 - (m : ℚ) * 10)

/-- Python `link_score = 100 if links_count >= 3 else (50 if links_count >= 1 else 20)`. -/
def linkScore (n : ℤ) : ℚ := if 3 ≤ n then 100 else if 1 ≤ n then 50 else 20

/-- Length of the stripped title, `len((features.get("title") or "").strip())`. -/
def titleLen (f : Features) : ℕ := (pyStrip (f.title.getD "")).length

/-- Length of the stripped meta description. -/
def metaLen (f : Features) : ℕ := (pyStrip (f.meta_description.getD "")).length

/-- Title-length component of the on-page score. -/
def titleScore (len : ℕ) : ℚ :=
  if 40 ≤ len ∧ len ≤ 70 then 100
  else if 70 < len then 60
  else if 20 ≤ len then 70
  else 30

/-- Meta-length component of the on-page score. -/
def metaScore (len : ℕ) : ℚ :=
  if 50 ≤ len ∧ len ≤ 160 then 100
  else if 160 < len then 60
  else if 30 ≤ len then 70
  else 20

def wcNote : String :=
  "Very short content — consider adding more helpful content (>300 words)."

def readNote : String :=
  "Low readability score — consider simplifying sentences and paragraphs."

def h1Note : String :=
  "Missing H1 heading — add a clear H1 with primary keyword."

def schemaNote : String :=
  "No structured data (JSON-LD) detected — adding Schema can help rich results."

def imagesNote (n : ℤ) : String :=
  toString n ++ " images missing alt text — add alt attributes to images."

def titleLongNote : String :=
  "Title is long — consider shortening to 50-70 characters."

def titleShortNote : String :=
  "Title is short or missing — include target keywords in the title (50-70 chars)."

def metaLongNote : String :=
  "Meta description is too long — keep it under 160 characters."

def metaShortNote : String :=
  "Meta description is short or missing — add a clear 50-160 char meta description."

/-- Notes added by the title-length branch of `compute_subscores`. -/
def titleNotes (len : ℕ) : List String :=
  if 40 ≤ len ∧ len ≤ 70 then []
  else if 70 < len then [titleLongNote]
  else if 20 ≤ len then []
  else [titleShortNote]

/-- Notes added by the meta-length branch of `compute_subscores`. -/
def metaNotes (len : ℕ) : List String :=
  if 50 ≤ len ∧ len ≤ 160 then []
  else if 160 < len then [metaLongNote]
  else if 30 ≤ len then []
  else [metaShortNote]

/-- The notes list assembled by `compute_subscores`, in the source's append order:
word count, readability, H1, schema, images, title length, meta length. -/
def subNotes (f : Features) : List String :=
  (if f.word_count < 150 then [wcNote] else [])
  ++ (if f.flesch < 40 then [readNote] else [])
  ++ (if h1Count f.headings = 0 then [h1Note] else [])
  ++ (if f.has_schema then [] else [schemaNote])
  ++ (if 0 < f.images_missing_alt then [imagesNote f.images_missing_alt] else [])
  ++ titleNotes (titleLen f)
  ++ metaNotes (metaLen f)

/-- Python `content_score = (wc_score * 0.5) + (read_score * 0.3) + (h_score * 0.2)`. -/
def contentScore (f : Features) : ℚ :=
  wcScore f.word_count * 0.5 + readScore f.flesch * 0.3 + hScore f.headings * 0.2

/-- Python `technical_score = (schema_score * 0.35) + (img_score * 0.35) + (link_score * 0.30)`. -/
def technicalScore (f : Features) : ℚ :=
  schemaScore f.has_schema * 0.35 + imgScore f.images_missing_alt * 0.35
    + linkScore f.links_count * 0.30

/-- Python `onpage_score = (title_score * 0.55) + (meta_score * 0.35) + (h_score * 0.10)`. -/
def onpageScore (f : Features) : ℚ :=
  titleScore (titleLen f) * 0.55 + metaScore (metaLen f) * 0.35 + hScore f.headings * 0.10

/-- Python `compute_subscores`: returns `(content, technical, onpage, notes)`,
each score clamped to `[0, 100]`. -/
def compute_subscores (f : Features) : ℚ × ℚ × ℚ × List String :=
  (clamp (contentScore f), clamp (technicalScore f), clamp (onpageScore f), subNotes f)

/-- Python `round(x, 2)` modelled over `ℚ` as rounding `100 * x` to the nearest
integer (Python's float banker's rounding is approximated by `round`). -/
def round2 (x : ℚ) : ℚ := ((round (x * 100) : ℤ) : ℚ) / 100

/-- The dict returned by `compute_overall_score`, with the `breakdown` and
`weights` sub-dicts flattened into fields. -/
structure ScoreResult where
  overall_score : ℚ
  breakdown_content : ℚ
  breakdown_technical : ℚ
  breakdown_onpage : ℚ
  weights_content : ℚ
  weights_technical : ℚ
  weights_onpage : ℚ
  notes : List String

/-- Python `compute_overall_score`: fixed weights `{content: 0.5, technical: 0.25,
onpage: 0.25}`, weighted sum of the sub-scores, clamped and rounded. -/
def compute_overall_score (f : Features) : ScoreResult :=
  let s := compute_subscores f
  let content := s.1
  let technical := s.2.1
  let onpage := s.2.2.1
  let notes := s.2.2.2
  let overall := clamp (content * 0.5 + technical * 0.25 + onpage * 0.25)
  { overall_score := round2 overall
    breakdown_content := round2 content
    breakdown_technical := round2 technical
    breakdown_onpage := round2 onpage
    weights_content := 0.5
    weights_technical := 0.25
    weights_onpage := 0.25
    notes := notes }

/-- Suffix of the images note, so that `imagesNote n = toString n ++ imagesNoteSuffix`. -/
def imagesNoteSuffix : String :=
  " images missing alt text — add alt attributes to images."

/-- A concrete features dict, the sample from `scoring.py`'s `__main__` block. -/
def sampleFeatures : Features :=
  { word_count := 250
    title := some "Best Pancake Recipes"
    meta_description := some "Easy pancake recipes to start your day"
    headings := ["h1"]
    images_missing_alt := 1
    links_count := 2
    has_schema := false
    flesch := 65 }

theorem clamp_nonneg (x : ℚ) : 0 ≤ clamp x := le_max_left 0 _

theorem clamp_le_100 (x : ℚ) : clamp x ≤ 100 :=
  max_le (by norm_num) (min_le_left _ _)

theorem clamp_mono {x y : ℚ} (h : x ≤ y) : clamp x ≤ clamp y :=
  max_le_max le_rfl (min_le_min le_rfl h)

theorem round2_mono {x y : ℚ} (h : x ≤ y) : round2 x ≤ round2 y := by
  unfold round2
  have hr : round (x * 100) ≤ round (y * 100) := by
    rw [round_eq, round_eq]
    exact Int.floor_le_floor (by linarith)
  have h2 : ((round (x * 100) : ℤ) : ℚ) ≤ ((round (y * 100) : ℤ) : ℚ) := by
    exact_mod_cast hr
  linarith

theorem round2_zero : round2 0 = 0 := by
  simp [round2]

theorem round2_hundred : round2 100 = 100 := by
  have h : ((100 : ℚ) * 100) = ((10000 : ℤ) : ℚ) := by norm_num
  simp [round2, h, round_intCast]
  norm_num

theorem round2_bounds {x : ℚ} (h0 : 0 ≤ x) (h1 : x ≤ 100) :
    0 ≤ round2 x ∧ round2 x ≤ 100 := by
  constructor
  · have := round2_mono h0
    rwa [round2_zero] at this
  · have := round2_mono h1
    rwa [round2_hundred] at this

theorem round2_clamp_congr {a b : ℚ} (h : a = b) :
    round2 (clamp a) = round2 (clamp b) := by rw [h]

theorem overall_formula (f : Features) :
    (compute_overall_score f).overall_score =
      round2 (clamp (clamp (contentScore f) * 0.5 + clamp (technicalScore f) * 0.25
        + clamp (onpageScore f) * 0.25)) := rfl

/-- C1: `compute_overall_score` returns the fixed weighted sum
`0.5 * content + 0.25 * technical + 0.25 * onpage` of the sub-scores from
`compute_subscores`, clamped to `[0, 100]` and rounded to 2 decimals, and
reports exactly the weights `{content: 0.5, technical: 0.25, onpage: 0.25}`. -/
theorem overall_is_fixed_weighted_sum (f : Features) :
    (compute_overall_score f).overall_score =
      round2 (clamp (0.5 * (compute_subscores f).1 + 0.25 * (compute_subscores f).2.1
        + 0.25 * (compute_subscores f).2.2.1)) ∧
    (compute_overall_score f).weights_content = 0.5 ∧
    (compute_overall_score f).weights_technical = 0.25 ∧
    (compute_overall_score f).weights_onpage = 0.25 := by
  refine ⟨?_, rfl, rfl, rfl⟩
  show round2 (clamp ((compute_subscores f).1 * 0.5 + (compute_subscores f).2.1 * 0.25
    + (compute_subscores f).2.2.1 * 0.25)) = _
  exact round2_clamp_congr (by ring)

/-- C2: each sub-score returned by `compute_subscores` and the overall score
returned by `compute_overall_score` lies in `[0, 100]`. -/
theorem subscores_and_overall_in_range (f : Features) :
    0 ≤ (compute_subscores f).1 ∧ (compute_subscores f).1 ≤ 100 ∧
    0 ≤ (compute_subscores f).2.1 ∧ (compute_subscores f).2.1 ≤ 100 ∧
    0 ≤ (compute_subscores f).2.2.1 ∧ (compute_subscores f).2.2.1 ≤ 100 ∧
    0 ≤ (compute_overall_score f).overall_score ∧
    (compute_overall_score f).overall_score ≤ 100 := by
  refine ⟨clamp_nonneg _, clamp_le_100 _, clamp_nonneg _, clamp_le_100 _,
    clamp_nonneg _, clamp_le_100 _, ?_, ?_⟩
  · rw [overall_formula]
    exact (round2_bounds (clamp_nonneg _) (clamp_le_100 _)).1
  · rw [overall_formula]
    exact (round2_bounds (clamp_nonneg _) (clamp_le_100 _)).2

theorem mem_if_singleton {α : Type} {c : Prop} [Decidable c] {a b : α} :
    a ∈ (if c then [b] else []) ↔ c ∧ a = b := by
  split <;> simp_all

theorem imagesNote_eq_append (n : ℤ) : imagesNote n = toString n ++ imagesNoteSuffix := rfl

theorem wcNote_ne_imagesNote (n : ℤ) : wcNote ≠ imagesNote n := by
  intro h
  have hd : wcNote.data = (toString n).data ++ imagesNoteSuffix.data := by
    rw [h, imagesNote_eq_append]
    exact String.data_append _ _
  have h2 : wcNote.data.reverse.take imagesNoteSuffix.data.length
      = imagesNoteSuffix.data.reverse := by
    rw [hd, List.reverse_append, ← List.length_reverse, List.take_left]
  revert h2
  decide

theorem wcNote_not_mem_titleNotes (n : ℕ) : wcNote ∉ titleNotes n := by
  unfold titleNotes
  split_ifs <;> decide

theorem wcNote_not_mem_metaNotes (n : ℕ) : wcNote ∉ metaNotes n := by
  unfold metaNotes
  split_ifs <;> decide

theorem mem_if_singleton_neg {α : Type} {c : Prop} [Decidable c] {a b : α} :
    a ∈ (if c then [] else [b]) ↔ ¬c ∧ a = b := by
  split <;> simp_all

theorem wcNote_mem_subNotes (f : Features) :
    wcNote ∈ subNotes f ↔ f.word_count < 150 := by
  unfold subNotes
  simp only [List.mem_append, mem_if_singleton, mem_if_singleton_neg]
  constructor
  · rintro ((((((⟨h, -⟩ | ⟨-, he⟩) | ⟨-, he⟩) | ⟨-, he⟩) | ⟨-, he⟩) | h) | h)
    · exact h
    · exact absurd he (by decide)
    · exact absurd he (by decide)
    · exact absurd he (by decide)
    · exact absurd he (wcNote_ne_imagesNote _)
    · exact absurd h (wcNote_not_mem_titleNotes _)
    · exact absurd h (wcNote_not_mem_metaNotes _)
  · intro h
    exact Or.inl (Or.inl (Or.inl (Or.inl (Or.inl (Or.inl ⟨h, trivial⟩)))))

/-- C3: the word-count component of the content score is a step function —
100 for `word_count ≥ 1200`, 85 on `[700, 1200)`, 65 on `[300, 700)`, 40 on
`[150, 300)`, 10 below 150 — and the very-short-content note is in the notes
list exactly when `word_count < 150`. -/
theorem wc_component_thresholds (f : Features) :
    (compute_subscores f).1
      = clamp (wcScore f.word_count * 0.5 + readScore f.flesch * 0.3
          + hScore f.headings * 0.2) ∧
    (1200 ≤ f.word_count → wcScore f.word_count = 100) ∧
    (700 ≤ f.word_count ∧ f.word_count < 1200 → wcScore f.word_count = 85) ∧
    (300 ≤ f.word_count ∧ f.word_count < 700 → wcScore f.word_count = 65) ∧
    (150 ≤ f.word_count ∧ f.word_count < 300 → wcScore f.word_count = 40) ∧
    (f.word_count < 150 → wcScore f.word_count = 10) ∧
    (wcNote ∈ (compute_subscores f).2.2.2 ↔ f.word_count < 150) := by
  refine ⟨rfl, ?_, ?_, ?_, ?_, ?_, wcNote_mem_subNotes f⟩ <;>
    · intro h
      unfold wcScore
      split_ifs <;> first | rfl | omega

/-- Witness for C3 at `word_count = 100 < 150`: the step value is 10 and the
very-short-content note is reported. -/
theorem wc_component_thresholds_witness :
    wcScore ({ sampleFeatures with word_count := 100 } : Features).word_count = 10 ∧
    wcNote ∈ (compute_subscores { sampleFeatures with word_count := 100 }).2.2.2 :=
  ⟨(wc_component_thresholds { sampleFeatures with word_count := 100 }).2.2.2.2.2.1
      (by decide),
   (wc_component_thresholds { sampleFeatures with word_count := 100 }).2.2.2.2.2.2.mpr
      (by decide)⟩

theorem imgScore_le_100 {m : ℤ} (h0 : 0 ≤ m) : imgScore m ≤ 100 := by
  unfold imgScore
  split_ifs with h
  · exact le_refl _
  · have : (0 : ℚ) ≤ (m : ℚ) := by exact_mod_cast h0
    exact max_le (by norm_num) (by linarith)

theorem imgScore_anti {m1 m2 : ℤ} (h0 : 0 ≤ m1) (h12 : m1 ≤ m2) :
    imgScore m2 ≤ imgScore m1 := by
  by_cases h1 : m1 = 0
  · subst h1
    have : imgScore 0 = 100 := by unfold imgScore; simp
    rw [this]
    exact imgScore_le_100 h12
  · have h2 : m2 ≠ 0 := by omega
    unfold imgScore
    simp only [h1, h2, if_false]
    have hc : (m1 : ℚ) ≤ (m2 : ℚ) := by exact_mod_cast h12
    exact max_le (le_max_left _ _) (le_max_of_le_right (by linarith))

/-- C4: with all other features fixed, the overall score is monotonically
non-increasing in `images_missing_alt`: for `0 ≤ m1 ≤ m2`, the score at `m2`
is at most the score at `m1`. -/
theorem overall_antitone_in_images_missing_alt (f : Features) (m1 m2 : ℤ)
    (h0 : 0 ≤ m1) (h12 : m1 ≤ m2) :
    (compute_overall_score { f with images_missing_alt := m2 }).overall_score ≤
      (compute_overall_score { f with images_missing_alt := m1 }).overall_score := by
  have htech : technicalScore { f with images_missing_alt := m2 } ≤
      technicalScore { f with images_missing_alt := m1 } := by
    show schemaScore f.has_schema * 0.35 + imgScore m2 * 0.35
        + linkScore f.links_count * 0.30 ≤
      schemaScore f.has_schema * 0.35 + imgScore m1 * 0.35
        + linkScore f.links_count * 0.30
    have := imgScore_anti h0 h12
    linarith
  have hcon : contentScore { f with images_missing_alt := m2 }
      = contentScore { f with images_missing_alt := m1 } := rfl
  have hon : onpageScore { f with images_missing_alt := m2 }
      = onpageScore { f with images_missing_alt := m1 } := rfl
  rw [overall_formula, overall_formula, hcon, hon]
  apply round2_mono
  apply clamp_mono
  have := clamp_mono htech
  linarith

/-- Witness for C4: at the sample features, the overall score with 5 images
missing alt text is at most the score with none missing. -/
theorem overall_antitone_witness :
    (compute_overall_score { sampleFeatures with images_missing_alt := 5 }).overall_score ≤
      (compute_overall_score { sampleFeatures with images_missing_alt := 0 }).overall_score :=
  overall_antitone_in_images_missing_alt sampleFeatures 0 5 (by decide) (by decide)

/-! ### scorer/train_model.py -/

/-- The feature-dict keys read by `compute_label_from_features`, typed.
Numeric truthiness of `h1_present` (`10.0 if feat.get("h1_present", 0) else 0.0`)
is modelled as `≠ 0`; `(feat.get(...) or 0.0)` maps falsy `0` to `0.0`, the
identity on `ℚ`. -/
structure LabelFeat where
  article_words : ℚ
  h1_present : ℚ
  readability : ℚ
  title_len : ℚ
  keyword_density_article : ℚ

/-- Python `compute_label_from_features`, accumulating the score in source order. -/
def compute_label_from_features (f : LabelFeat) : ℚ :=
  let score : ℚ := 0
  let score := score + min 20 (f.article_words * 0.05)
  let score := score + (if f.h1_present ≠ 0 then 10 else 0)
  let score := score + min 30 (f.readability * 0.2)
  let score := score + min 20 (f.title_len * 0.2)
  let score := score + min 20 (f.keyword_density_article * 100)
  max 0 (min 100 score)

/-- C5: the label heuristic equals the capped-sum formula from the spec and
its result always lies in `[0, 100]`. -/
theorem label_formula_and_range (f : LabelFeat) :
    compute_label_from_features f
      = max 0 (min 100 (min 20 (f.article_words * 0.05)
          + (if f.h1_present ≠ 0 then 10 else 0)
          + min 30 (f.readability * 0.2)
          + min 20 (f.title_len * 0.2)
          + min 20 (f.keyword_density_article * 100))) ∧
    0 ≤ compute_label_from_features f ∧
    compute_label_from_features f ≤ 100 := by
  refine ⟨?_, le_max_left _ _, max_le (by norm_num) (min_le_left _ _)⟩
  show max 0 (min 100 _) = max 0 (min 100 _)
  exact congrArg _ (congrArg _ (by ring))

/-! ### scorer/features.py

`re.findall(r"\w+", text)` is modelled over ASCII word characters
(alphanumeric or underscore); `textstat.flesch_reading_ease` is an external
library call, passed in as a function parameter `flesch`.  The final
"replace non-finite floats by 0.0" loop of `extract_features` is a no-op
over `ℚ`, where every value is finite. -/

def isWordChar (c : Char) : Bool := c.isAlphanum || c = '_'

/-- Maximal runs of word characters, accumulating the current run reversed. -/
def wordRuns : List Char → List Char → List (List Char)
  | [], [] => []
  | [], cur => [cur.reverse]
  | c :: cs, cur =>
    if isWordChar c then wordRuns cs (c :: cur)
    else if cur.isEmpty then wordRuns cs []
    else cur.reverse :: wordRuns cs []

/-- Python `re.findall(r"\w+", s)`. -/
def pyWords (s : String) : List String :=
  (wordRuns s.data []).map (fun l => String.mk l)

/-- Python `count_words`. -/
def count_words (text : String) : ℕ :=
  if text = "" then 0 else (pyWords text).length

/-- Python `keyword_density`. -/
def keyword_density (text : String) (keywords : List String) : ℚ :=
  if text = "" ∨ keywords = [] then 0
  else
    let ws := pyWords text.toLower
    let total : ℕ := if ws.length = 0 then 1 else ws.length
    let kcount : ℕ :=
      (keywords.map (fun k => (ws.filter (fun w => w = k.toLower)).length)).sum
    (kcount : ℚ) / (total : ℚ)

/-- Python `re.split(r'[.!?]+', text)`, stripped, empty segments dropped. -/
def sentenceSplit (text : String) : List String :=
  ((text.split (fun c => c = '.' || c = '!' || c = '?')).map pyStrip).filter
    (fun s => s ≠ "")

/-- Python `avg_sentence_length`. -/
def avg_sentence_length (text : String) : ℚ :=
  if text = "" then 0
  else
    let sentences := sentenceSplit text
    if sentences = [] then 0
    else ((sentences.map (fun s => (pyWords s).length)).sum : ℚ) / (sentences.length : ℚ)

/-- The analyzer dict fields read by `extract_features`.  `Option` models a
missing key or a `None` value; truthy checks (`h1`, `canonical`) are `Bool`. -/
structure Analyzer where
  title : Option String
  meta : Option String
  h1 : Bool
  heading_count : Option ℤ
  images_count : Option ℤ
  internal_links : Option ℤ
  external_links : Option ℤ
  canonical : Bool

/-- The page/generated dict: `title`, `article`, `meta` strings plus the
`keywords` list that `predict_score` reads from the same dict. -/
structure Page where
  title : String
  article : String
  meta : String
  keywords : List String

/-- Python `extract_features(analyzer, generated, keywords)`: ordered association
list of the 17 numeric features, in the source's insertion order. -/
def extract_features (flesch : String → ℚ) (analyzer : Analyzer) (generated : Page)
    (keywords : List String) : List (String × ℚ) :=
  let title_len : ℚ := ((analyzer.title.getD "").length : ℚ)
  let meta_len : ℚ := ((analyzer.meta.getD "").length : ℚ)
  let h1_present : ℚ := if analyzer.h1 then 1 else 0
  let h_count : ℚ := ((analyzer.heading_count.getD 0 : ℤ) : ℚ)
  let images : ℚ := ((analyzer.images_count.getD 0 : ℤ) : ℚ)
  let internal_links : ℚ := ((analyzer.internal_links.getD 0 : ℤ) : ℚ)
  let external_links : ℚ := ((analyzer.external_links.getD 0 : ℤ) : ℚ)
  let has_canonical : ℚ := if analyzer.canonical then 1 else 0
  let article_text := generated.article
  let title_text := generated.title
  let meta_text := generated.meta
  let article_words : ℕ := count_words article_text
  let readability : ℚ := if article_text ≠ "" then flesch article_text else 0
  let denom : ℚ := if article_words = 0 then 1 else (article_words : ℚ)
  [("title_len", title_len),
   ("meta_len", meta_len),
   ("h1_present", h1_present),
   ("h_count", h_count),
   ("images", images),
   ("internal_links", internal_links),
   ("external_links", external_links),
   ("has_canonical", has_canonical),
   ("article_words", (article_words : ℚ)),
   ("title_words", (count_words title_text : ℚ)),
   ("meta_words", (count_words meta_text : ℚ)),
   ("avg_sentence_len", avg_sentence_length article_text),
   ("readability", readability),
   ("keyword_density_title", keyword_density title_text keywords),
   ("keyword_density_article", keyword_density article_text keywords),
   ("images_per_100_words", images / denom * 100),
   ("links_per_100_words", (internal_links + external_links) / denom * 100)]

/-! ### scorer/api.py

The joblib-loaded regressor is modelled as an abstract function
`model : List (List ℚ) → List ℚ` (rows in, one prediction per row out);
`feature_keys` saved at training time is an `Option (List String)`
(`none` or `some []` are both falsy in `if feature_keys:`). -/

/-- Python `feats.get(k, 0.0)`. -/
def featsGetD (feats : List (String × ℚ)) (k : String) : ℚ :=
  (feats.lookup k).getD 0

/-- Insertion step for Python's `sorted` over strings. -/
def insertSorted (s : String) : List String → List String
  | [] => [s]
  | t :: ts => if s ≤ t then s :: t :: ts else t :: insertSorted s ts

/-- Python `sorted(l)` for strings (code-point lexicographic order). -/
def sortStrings (l : List String) : List String := l.foldr insertSorted []

/-- The key order used to build the input row:
`feature_keys` when truthy, else `sorted(feats.keys())`. -/
def predictKeys (feats : List (String × ℚ)) (feature_keys : Option (List String)) :
    List String :=
  match feature_keys with
  | some ks => if ks.isEmpty then sortStrings (feats.map Prod.fst) else ks
  | none => sortStrings (feats.map Prod.fst)

/-- The single input row `[feats.get(k, 0.0) for k in keys]`. -/
def predictRow (feats : List (String × ℚ)) (keys : List String) : List ℚ :=
  keys.map (fun k => featsGetD feats k)

/-- The request body of `POST /predict/`: a `meta` dict (analyzer view) and a
`page` dict. -/
structure Payload where
  meta : Analyzer
  page : Page

/-- Python `predict_score`: extract features, build one row in the saved key order,
call the model once on `[row]`, return the first prediction and the features.
(`model.predict(X)[0]` is modelled as `headD 0`; sklearn returns one
prediction per input row.) -/
def predict_score (flesch : String → ℚ) (model : List (List ℚ) → List ℚ)
    (feature_keys : Option (List String)) (payload : Payload) :
    ℚ × List (String × ℚ) :=
  let page := payload.page
  let meta := payload.meta
  let keywords := page.keywords
  let feats := extract_features flesch meta page keywords
  let keys := predictKeys feats feature_keys
  let X := [predictRow feats keys]
  let y := model X
  (y.headD 0, feats)

/-- C6: `predict_score` extracts the features with `extract_features`, builds
one row of looked-up values (0 for a missing key) in the saved key order
(sorted names as fallback), returns the first value of the model applied to
that single row together with the features, and the result depends on the
model only through its value at that one row. -/
theorem predict_single_call (flesch : String → ℚ)
    (model model₂ : List (List ℚ) → List ℚ)
    (fk : Option (List String)) (payload : Payload) :
    (predict_score flesch model fk payload).2
        = extract_features flesch payload.meta payload.page payload.page.keywords ∧
    (predict_score flesch model fk payload).1
        = (model [predictRow (predict_score flesch model fk payload).2
            (predictKeys (predict_score flesch model fk payload).2 fk)]).headD 0 ∧
    predictRow (predict_score flesch model fk payload).2
        (predictKeys (predict_score flesch model fk payload).2 fk)
      = (predictKeys (predict_score flesch model fk payload).2 fk).map
          (fun k => ((predict_score flesch model fk payload).2.lookup k).getD 0) ∧
    (∀ ks : List String, ks ≠ [] → fk = some ks →
      predictKeys (predict_score flesch model fk payload).2 fk = ks) ∧
    ((fk = none ∨ fk = some []) →
      predictKeys (predict_score flesch model fk payload).2 fk
        = sortStrings ((predict_score flesch model fk payload).2.map Prod.fst)) ∧
    (model [predictRow (predict_score flesch model fk payload).2
        (predictKeys (predict_score flesch model fk payload).2 fk)]
      = model₂ [predictRow (predict_score flesch model fk payload).2
        (predictKeys (predict_score flesch model fk payload).2 fk)] →
      predict_score flesch model fk payload = predict_score flesch model₂ fk payload) := by
  refine ⟨rfl, rfl, rfl, ?_, ?_, ?_⟩
  · intro ks hne hfk
    subst hfk
    show (if ks.isEmpty then _ else ks) = ks
    simp [List.isEmpty_iff, hne]
  · rintro (hfk | hfk) <;> subst hfk
    · rfl
    · rfl
  · intro h
    have h2 : model [predictRow (extract_features flesch payload.meta payload.page
          payload.page.keywords) (predictKeys (extract_features flesch payload.meta
          payload.page payload.page.keywords) fk)]
        = model₂ [predictRow (extract_features flesch payload.meta payload.page
          payload.page.keywords) (predictKeys (extract_features flesch payload.meta
          payload.page payload.page.keywords) fk)] := h
    show (_, _) = (_, _)
    rw [h2]

/-- A small concrete request for the prediction endpoint. -/
def samplePayload : Payload :=
  { meta :=
      { title := some "Pancakes"
        meta := some "Easy pancake recipes"
        h1 := true
        heading_count := some 2
        images_count := some 1
        internal_links := some 2
        external_links := some 0
        canonical := true }
    page :=
      { title := "Pancakes"
        article := "Easy pancakes. Tasty!"
        meta := "Pancake recipes"
        keywords := ["pancakes"] } }

/-- Witness for C6: two different models that agree on the single input row
produce identical predictions on the sample payload. -/
theorem predict_single_call_witness :
    predict_score (fun _ => 50) (fun _ => [42]) none samplePayload
      = predict_score (fun _ => 50)
          (fun rows => if rows.length = 1 then [42] else [0]) none samplePayload :=
  (predict_single_call (fun _ => 50) (fun _ => [42])
      (fun rows => if rows.length = 1 then [42] else [0]) none samplePayload).2.2.2.2.2
    (by rfl)

/-! ### monitor/jobs.py — monitoring cycle

The two HTTP round-trips (`POST /api/analyze/` and `POST /api/score/predict/`,
including `raise_for_status` and JSON decoding) are modelled as oracles
returning `Except String _`: `.error e` stands for a raised exception with
message `e`.  The `results` dict is an association list with Python-dict
insertion semantics (update in place, append when new). -/

/-- The analyze-response fields read by `monitor_once`. -/
structure AnaResult where
  title : Option String
  meta_description : Option String
  top_keywords : Option (List String)
deriving DecidableEq

/-- The quick score payload `page` built by `monitor_once`. -/
structure MonPage where
  title : String
  article : String
  meta : String
  keywords : List String
  heading_count : ℤ
  images_count : ℤ
  internal_links : ℤ
  external_links : ℤ
  canonical : Bool
deriving DecidableEq

def buildMonPage (ana : AnaResult) : MonPage :=
  { title := ana.title.getD ""
    article := ana.title.getD "" ++ " " ++ ana.meta_description.getD ""
    meta := ana.meta_description.getD ""
    keywords := ana.top_keywords.getD []
    heading_count := 1
    images_count := 0
    internal_links := 0
    external_links := 0
    canonical := true }

/-- One `results[url]` record: either the analyze result plus
`score.get("score")`, or an error record with the exception message. -/
inductive MonEntry where
  | success (analyze : AnaResult) (score : Option ℚ)
  | failure (error : String)
deriving DecidableEq

/-- The body of the per-URL `try` block. -/
def processUrl (analyzeCall : String → Except String AnaResult)
    (scoreCall : MonPage → Except String (Option ℚ)) (url : String) : MonEntry :=
  match analyzeCall url with
  | .error e => .failure e
  | .ok ana =>
    match scoreCall (buildMonPage ana) with
    | .error e => .failure e
    | .ok s => .success ana s

/-- Python-dict assignment `d[k] = v` on an association list: update the
value in place when the key is present, append otherwise. -/
def dictInsert {β : Type} : List (String × β) → String → β → List (String × β)
  | [], k, v => [(k, v)]
  | p :: ps, k, v => if p.1 = k then (k, v) :: ps else p :: dictInsert ps k v

/-- Python `monitor_once`: one cycle over the watch URLs, never propagating a
per-URL exception. -/
def monitor_once (analyzeCall : String → Except String AnaResult)
    (scoreCall : MonPage → Except String (Option ℚ)) (urls : List String) :
    List (String × MonEntry) :=
  urls.foldl (fun acc u => dictInsert acc u (processUrl analyzeCall scoreCall u)) []

theorem dictInsert_keys {β : Type} (d : List (String × β)) (k : String) (v : β) :
    (dictInsert d k v).map Prod.fst
      = if k ∈ d.map Prod.fst then d.map Prod.fst else d.map Prod.fst ++ [k] := by
  induction d with
  | nil => simp [dictInsert]
  | cons p ps ih =>
    rcases p with ⟨a, b⟩
    by_cases ha : a = k
    · subst ha
      simp [dictInsert]
    · have hka : ¬ k = a := fun h => ha h.symm
      simp only [dictInsert, ha, if_false, List.map_cons, ih]
      by_cases hk : k ∈ ps.map Prod.fst <;> simp [hk, hka]

theorem dictInsert_lookup_self {β : Type} (d : List (String × β)) (k : String) (v : β) :
    (dictInsert d k v).lookup k = some v := by
  induction d with
  | nil => simp [dictInsert, List.lookup]
  | cons p ps ih =>
    rcases p with ⟨a, b⟩
    by_cases ha : a = k
    · subst ha
      simp [dictInsert, List.lookup]
    · have hka : (k == a) = false := by
        have h2 : ¬ k = a := fun h3 => ha h3.symm
        simp [h2]
      simp [dictInsert, ha, List.lookup, hka, ih]

theorem dictInsert_lookup_ne {β : Type} (d : List (String × β)) (k k' : String) (v : β)
    (hne : k' ≠ k) : (dictInsert d k v).lookup k' = d.lookup k' := by
  induction d with
  | nil =>
    have : (k' == k) = false := by simp [hne]
    simp [dictInsert, List.lookup, this]
  | cons p ps ih =>
    rcases p with ⟨a, b⟩
    by_cases ha : a = k
    · subst ha
      have : (k' == a) = false := by simp [hne]
      simp [dictInsert, List.lookup, this]
    · by_cases hk' : k' = a
      · subst hk'
        simp [dictInsert, ha, List.lookup]
      · have h2 : (k' == a) = false := by simp [hk']
        simp [dictInsert, ha, List.lookup, h2, ih]

theorem dictInsert_keys_nodup {β : Type} (d : List (String × β)) (k : String) (v : β)
    (h : (d.map Prod.fst).Nodup) : ((dictInsert d k v).map Prod.fst).Nodup := by
  rw [dictInsert_keys]
  split_ifs with hk
  · exact h
  · simp [List.nodup_append, h, hk]

theorem dictInsert_keys_mem {β : Type} (d : List (String × β)) (k : String) (v : β)
    (u : String) :
    u ∈ (dictInsert d k v).map Prod.fst ↔ u ∈ d.map Prod.fst ∨ u = k := by
  rw [dictInsert_keys]
  split_ifs with h
  · constructor
    · exact fun h1 => Or.inl h1
    · rintro (h1 | h1)
      · exact h1
      · exact h1 ▸ h
  · simp [List.mem_append]

theorem foldl_dictInsert_lookup_not_mem {β : Type} (f : String → β) (urls : List String)
    (acc : List (String × β)) (u : String) (hu : u ∉ urls) :
    (urls.foldl (fun a x => dictInsert a x (f x)) acc).lookup u = acc.lookup u := by
  induction urls generalizing acc with
  | nil => rfl
  | cons x xs ih =>
    have hne : u ≠ x := fun h => hu (h ▸ List.mem_cons_self x xs)
    have hxs : u ∉ xs := fun h => hu (List.mem_cons_of_mem x h)
    rw [List.foldl_cons, ih _ hxs, dictInsert_lookup_ne _ _ _ _ hne]

theorem foldl_dictInsert_lookup_mem {β : Type} (f : String → β) (urls : List String)
    (acc : List (String × β)) (u : String) (hu : u ∈ urls) :
    (urls.foldl (fun a x => dictInsert a x (f x)) acc).lookup u = some (f u) := by
  induction urls generalizing acc with
  | nil => cases hu
  | cons x xs ih =>
    by_cases hx : u ∈ xs
    · exact ih _ hx
    · have hux : u = x := by
        rcases List.mem_cons.mp hu with h | h
        · exact h
        · exact absurd h hx
      subst hux
      rw [List.foldl_cons, foldl_dictInsert_lookup_not_mem f xs _ u hx,
        dictInsert_lookup_self]

theorem foldl_dictInsert_keys_mem {β : Type} (f : String → β) (urls : List String)
    (acc : List (String × β)) (u : String) :
    u ∈ (urls.foldl (fun a x => dictInsert a x (f x)) acc).map Prod.fst
      ↔ u ∈ acc.map Prod.fst ∨ u ∈ urls := by
  induction urls generalizing acc with
  | nil => simp
  | cons x xs ih =>
    rw [List.foldl_cons, ih, dictInsert_keys_mem]
    simp only [List.mem_cons]
    tauto

theorem foldl_dictInsert_keys_nodup {β : Type} (f : String → β) (urls : List String)
    (acc : List (String × β)) (h : (acc.map Prod.fst).Nodup) :
    ((urls.foldl (fun a x => dictInsert a x (f x)) acc).map Prod.fst).Nodup := by
  induction urls generalizing acc with
  | nil => exact h
  | cons x xs ih => exact ih _ (dictInsert_keys_nodup _ _ _ h)

/-- C7: `monitor_once` returns exactly one entry per watched URL — keys are
exactly the watch URLs, without duplicates — and for every watched URL the
entry is the outcome of its own `try` block: the analyze result plus the
predicted score when both calls succeed, an error record carrying the
exception message when any step raises; no per-URL exception escapes. -/
theorem monitor_once_per_url (ac : String → Except String AnaResult)
    (sc : MonPage → Except String (Option ℚ)) (urls : List String) :
    ((monitor_once ac sc urls).map Prod.fst).Nodup ∧
    (∀ u, u ∈ (monitor_once ac sc urls).map Prod.fst ↔ u ∈ urls) ∧
    (∀ u, u ∈ urls →
      (monitor_once ac sc urls).lookup u = some (processUrl ac sc u)) ∧
    (∀ u ana s, ac u = .ok ana → sc (buildMonPage ana) = .ok s →
      processUrl ac sc u = .success ana s) ∧
    (∀ u e, ac u = .error e → processUrl ac sc u = .failure e) ∧
    (∀ u ana e, ac u = .ok ana → sc (buildMonPage ana) = .error e →
      processUrl ac sc u = .failure e) := by
  refine ⟨foldl_dictInsert_keys_nodup (processUrl ac sc) urls [] (by simp),
    ?_, ?_, ?_, ?_, ?_⟩
  · intro u
    have := foldl_dictInsert_keys_mem (processUrl ac sc) urls [] u
    simpa [monitor_once] using this
  · intro u hu
    exact foldl_dictInsert_lookup_mem (processUrl ac sc) urls [] u hu
  · intro u ana s h1 h2
    simp [processUrl, h1, h2]
  · intro u e h1
    simp [processUrl, h1]
  · intro u ana e h1 h2
    simp [processUrl, h1, h2]

/-- A concrete analyze oracle: succeeds on one URL, raises on every other. -/
def acW : String → Except String AnaResult := fun u =>
  if u = "https://a.example" then
    .ok { title := some "A", meta_description := some "Meta", top_keywords := some ["a"] }
  else .error "boom"

/-- A concrete score oracle that always succeeds. -/
def scW : MonPage → Except String (Option ℚ) := fun _ => .ok (some 55)

/-- Witness for C7: on a two-URL watch list the succeeding URL gets its
per-URL entry and the failing URL gets an error record with the message. -/
theorem monitor_once_per_url_witness :
    (monitor_once acW scW ["https://a.example", "https://b.example"]).lookup
        "https://a.example" = some (processUrl acW scW "https://a.example") ∧
    processUrl acW scW "https://b.example" = .failure "boom" :=
  ⟨(monitor_once_per_url acW scW ["https://a.example", "https://b.example"]).2.2.1
      "https://a.example" (by decide),
   (monitor_once_per_url acW scW ["https://a.example", "https://b.example"]).2.2.2.2.1
      "https://b.example" "boom" (by rfl)⟩

/-! ### monitor/jobs.py — watch-URL store

`set_watch_urls` receives an arbitrary JSON-ish list; `_load_urls` reads
`monitor/urls.json`, whose state is modelled by `LoadOutcome`: the file may
be missing, unreadable (read or JSON-decode exception), or hold a parsed
value. -/

/-- A JSON-ish Python value, as stored in `urls.json` or passed to
`set_watch_urls`. -/
inductive PyVal where
  | str (s : String)
  | num (q : ℚ)
  | bool (b : Bool)
  | null
  | list (xs : List PyVal)

def DEFAULT_URLS : List PyVal := [.str "https://example.com"]

/-- Python `isinstance(u, str) and u.strip()`. -/
def isNonBlankStr : PyVal → Bool
  | .str s => !(pyStrip s == "")
  | _ => false

/-- Python `set_watch_urls`: `cleaned` is the input filtered to non-blank strings;
the default list is substituted when nothing survives; the returned list is
also the persisted one. -/
def set_watch_urls (urls : List PyVal) : List PyVal :=
  if (urls.filter isNonBlankStr).isEmpty then DEFAULT_URLS
  else urls.filter isNonBlankStr

/-- The observable state of `monitor/urls.json` when `_load_urls` runs. -/
inductive LoadOutcome where
  | missing
  | unreadable
  | value (v : PyVal)

/-- Python `_load_urls`: the stored value when it is a non-empty list, the default
list otherwise (missing file, exception, non-list, or empty list). -/
def load_urls : LoadOutcome → List PyVal
  | .value (.list xs) => if xs.isEmpty then DEFAULT_URLS else xs
  | _ => DEFAULT_URLS

/-- Python `get_watch_urls` just delegates to `_load_urls`. -/
def get_watch_urls (st : LoadOutcome) : List PyVal := load_urls st

/-- C8: `set_watch_urls` always returns (and persists) a non-empty list of
non-blank strings — the filtered input when anything survives, else the
default list — and `get_watch_urls` always returns a non-empty list: the
stored list when it is a non-empty list, the default list when the store is
missing, unreadable, empty, or not a list. -/
theorem watch_urls_invariant (urls : List PyVal) (st : LoadOutcome) :
    set_watch_urls urls ≠ [] ∧
    (∀ v ∈ set_watch_urls urls, ∃ s : String, v = .str s ∧ pyStrip s ≠ "") ∧
    (urls.filter isNonBlankStr ≠ [] →
      set_watch_urls urls = urls.filter isNonBlankStr) ∧
    (urls.filter isNonBlankStr = [] → set_watch_urls urls = DEFAULT_URLS) ∧
    get_watch_urls (.value (.list (set_watch_urls urls))) = set_watch_urls urls ∧
    get_watch_urls st ≠ [] ∧
    (∀ xs, xs ≠ [] → get_watch_urls (.value (.list xs)) = xs) ∧
    get_watch_urls (.value (.list [])) = DEFAULT_URLS ∧
    get_watch_urls .missing = DEFAULT_URLS ∧
    get_watch_urls .unreadable = DEFAULT_URLS ∧
    (∀ v : PyVal, (∀ xs, v ≠ .list xs) → get_watch_urls (.value v) = DEFAULT_URLS) := by
  have hset : set_watch_urls urls ≠ [] := by
    unfold set_watch_urls
    split_ifs with h
    · simp [DEFAULT_URLS]
    · simpa [List.isEmpty_iff] using h
  have hget : ∀ xs : List PyVal, xs ≠ [] → get_watch_urls (.value (.list xs)) = xs := by
    intro xs hxs
    simp [get_watch_urls, load_urls, List.isEmpty_iff, hxs]
  refine ⟨hset, ?_, ?_, ?_, hget _ hset, ?_, hget, by simp [get_watch_urls, load_urls],
    rfl, rfl, ?_⟩
  · intro v hv
    unfold set_watch_urls at hv
    split_ifs at hv with h
    · have hv2 : v = PyVal.str "https://example.com" := by
        simpa [DEFAULT_URLS] using hv
      exact ⟨"https://example.com", hv2, by decide⟩
    · have := List.of_mem_filter hv
      cases v with
      | str s =>
        refine ⟨s, rfl, ?_⟩
        simpa [isNonBlankStr] using this
      | num q => simp [isNonBlankStr] at this
      | bool b => simp [isNonBlankStr] at this
      | null => simp [isNonBlankStr] at this
      | list xs => simp [isNonBlankStr] at this
  · intro h
    unfold set_watch_urls
    simp [List.isEmpty_iff, h]
  · intro h
    unfold set_watch_urls
    simp [List.isEmpty_iff, h]
  · cases st with
    | missing => simp [get_watch_urls, load_urls, DEFAULT_URLS]
    | unreadable => simp [get_watch_urls, load_urls, DEFAULT_URLS]
    | value v =>
      cases v with
      | list xs =>
        by_cases hxs : xs = []
        · subst hxs
          simp [get_watch_urls, load_urls, DEFAULT_URLS]
        · rw [hget xs hxs]
          exact hxs
      | str s => simp [get_watch_urls, load_urls, DEFAULT_URLS]
      | num q => simp [get_watch_urls, load_urls, DEFAULT_URLS]
      | bool b => simp [get_watch_urls, load_urls, DEFAULT_URLS]
      | null => simp [get_watch_urls, load_urls, DEFAULT_URLS]
  · intro v hv
    cases v with
    | list xs => exact absurd rfl (hv xs)
    | str s => rfl
    | num q => rfl
    | bool b => rfl
    | null => rfl

/-- Witness for C8: a list holding one blank and one non-string entry
collapses to the default list, and a stored singleton round-trips. -/
theorem watch_urls_invariant_witness :
    set_watch_urls [.str "   ", .num 3] = DEFAULT_URLS ∧
    get_watch_urls (.value (.list [.str "https://x.example"])) = [.str "https://x.example"] :=
  ⟨(watch_urls_invariant [.str "   ", .num 3] .missing).2.2.2.1 (by rfl),
   (watch_urls_invariant [] .missing).2.2.2.2.2.2.1 [.str "https://x.example"]
      (by simp)⟩

/-! ### schedule/api.py — `_next_occurrences`

A timezone-aware `datetime` is reduced to the fields the search uses:
the proleptic-Gregorian ordinal of the date plus the time-of-day fields.
Python compares two datetimes in the same timezone lexicographically on
(date, hour, minute, second, microsecond); `weekday()` is 0 for Monday and
ordinal 1 (0001-01-01) is a Monday.  `cur.replace(hour=h)` raises
`ValueError` when `h` is outside `0..23`, modelled with `Except`. -/

structure DT where
  day : ℤ
  hour : ℤ
  minute : ℤ
  second : ℤ
  micro : ℤ
deriving DecidableEq

/-- Python `weekday()`: `(ordinal - 1) % 7`, in `0..6` with 0 = Monday. -/
def DT.weekday (d : DT) : ℤ := (d.day - 1) % 7

def DOW_ORDER : List String := ["Mon", "Tue", "Wed", "Thu", "Fri", "Sat", "Sun"]

/-- Python `DOW_ORDER[cur.weekday()]`. -/
def dowName (d : DT) : String := DOW_ORDER.getD d.weekday.toNat ""

/-- Strict datetime comparison `a < b`, lexicographic on the fields. -/
def dtLtB (a b : DT) : Bool :=
  if a.day < b.day then true
  else if b.day < a.day then false
  else if a.hour < b.hour then true
  else if b.hour < a.hour then false
  else if a.minute < b.minute then true
  else if b.minute < a.minute then false
  else if a.second < b.second then true
  else if b.second < a.second then false
  else decide (a.micro < b.micro)

/-- Inner `for h in hours` loop of `_next_occurrences`: build
`slot = cur.replace(hour=h)` (raising `ValueError` for an invalid hour),
append it when `slot > start`, and return early (`true` flag) as soon as
`len(results) >= k`. -/
def hoursLoop (start cur : DT) (k : ℕ) :
    List ℤ → List DT → Except String (List DT × Bool)
  | [], acc => .ok (acc, false)
  | h :: hs, acc =>
    if 0 ≤ h ∧ h ≤ 23 then
      if dtLtB start { cur with hour := h } then
        if k ≤ (acc ++ [{ cur with hour := h }]).length then
          .ok (acc ++ [{ cur with hour := h }], true)
        else hoursLoop start cur k hs (acc ++ [{ cur with hour := h }])
      else hoursLoop start cur k hs acc
    else .error "ValueError"

/-- Outer `for day_offset in range(0, 22)` loop: on each allowed weekday,
run the hours loop; an early return from it ends the search. -/
def daysLoop (start d0 : DT) (dowList : List String) (hours : List ℤ) (k : ℕ) :
    List ℕ → List DT → Except String (List DT)
  | [], acc => .ok acc
  | off :: rest, acc =>
    if dowName { d0 with day := d0.day + (off : ℤ) } ∈ dowList then
      match hoursLoop start { d0 with day := d0.day + (off : ℤ) } k hours acc with
      | .error e => .error e
      | .ok (acc2, true) => .ok acc2
      | .ok (acc2, false) => daysLoop start d0 dowList hours k rest acc2
    else daysLoop start d0 dowList hours k rest acc

/-- Python `_next_occurrences(start, dow_list, hours, k)`:
`d = start.replace(minute=0, second=0, microsecond=0)`, then scan day
offsets `0..21`. -/
def next_occurrences (start : DT) (dowList : List String) (hours : List ℤ)
    (k : ℕ) : Except String (List DT) :=
  daysLoop start { start with minute := 0, second := 0, micro := 0 } dowList hours k
    (List.range 22) []

theorem hoursLoop_sound (start cur : DT) (k : ℕ) (hs : List ℤ) :
    ∀ (acc acc2 : List DT) (b : Bool),
      hoursLoop start cur k hs acc = .ok (acc2, b) →
      (∀ x ∈ acc2, x ∈ acc ∨ ∃ h, h ∈ hs ∧ 0 ≤ h ∧ h ≤ 23
        ∧ x = { cur with hour := h } ∧ dtLtB start x = true) ∧
      (acc.length < max k 1 → acc2.length ≤ max k 1) ∧
      (acc.length < max k 1 → b = false → acc2.length < max k 1) := by
  induction hs with
  | nil =>
    intro acc acc2 b hres
    simp only [hoursLoop, Except.ok.injEq, Prod.mk.injEq] at hres
    obtain ⟨rfl, rfl⟩ := hres
    exact ⟨fun x hx => Or.inl hx, fun h2 => le_of_lt h2, fun h2 _ => h2⟩
  | cons h hs ih =>
    intro acc acc2 b hres
    rw [hoursLoop] at hres
    split_ifs at hres with hval hlt hk
    · simp only [Except.ok.injEq, Prod.mk.injEq] at hres
      obtain ⟨rfl, rfl⟩ := hres
      refine ⟨?_, ?_, ?_⟩
      · intro x hx
        rcases List.mem_append.mp hx with hx2 | hx2
        · exact Or.inl hx2
        · have hx3 : x = { cur with hour := h } := by simpa using hx2
          exact Or.inr ⟨h, List.mem_cons_self _ _, hval.1, hval.2, hx3, hx3 ▸ hlt⟩
      · intro hlen
        simp only [List.length_append, List.length_singleton]
        omega
      · intro _ hb
        exact Bool.noConfusion hb
    · obtain ⟨hmem, hle, hflag⟩ := ih (acc ++ [{ cur with hour := h }]) acc2 b hres
      have hlen2 : (acc ++ [{ cur with hour := h }]).length < max k 1 := by
        simp only [List.length_append, List.length_singleton] at hk ⊢
        omega
      refine ⟨?_, fun _ => hle hlen2, fun _ hb => hflag hlen2 hb⟩
      intro x hx
      rcases hmem x hx with hx2 | ⟨h', hm, hv1, hv2, hx3, hlt'⟩
      · rcases List.mem_append.mp hx2 with hx3 | hx3
        · exact Or.inl hx3
        · have hx4 : x = { cur with hour := h } := by simpa using hx3
          exact Or.inr ⟨h, List.mem_cons_self _ _, hval.1, hval.2, hx4, hx4 ▸ hlt⟩
      · exact Or.inr ⟨h', List.mem_cons_of_mem _ hm, hv1, hv2, hx3, hlt'⟩
    · obtain ⟨hmem, hle, hflag⟩ := ih acc acc2 b hres
      refine ⟨?_, hle, hflag⟩
      intro x hx
      rcases hmem x hx with hx2 | ⟨h', hm, hv1, hv2, hx3, hlt'⟩
      · exact Or.inl hx2
      · exact Or.inr ⟨h', List.mem_cons_of_mem _ hm, hv1, hv2, hx3, hlt'⟩

theorem daysLoop_sound (start d0 : DT) (dowList : List String) (hours : List ℤ)
    (k : ℕ) (offs : List ℕ) :
    ∀ (acc res : List DT),
      daysLoop start d0 dowList hours k offs acc = .ok res →
      (∀ x ∈ res, x ∈ acc ∨ ∃ off, off ∈ offs ∧ ∃ h, h ∈ hours ∧ 0 ≤ h ∧ h ≤ 23
        ∧ x = { d0 with day := d0.day + (off : ℤ), hour := h }
        ∧ dtLtB start x = true
        ∧ dowName { d0 with day := d0.day + (off : ℤ) } ∈ dowList) ∧
      (acc.length < max k 1 → res.length ≤ max k 1) := by
  induction offs with
  | nil =>
    intro acc res hres
    simp only [daysLoop, Except.ok.injEq] at hres
    subst hres
    exact ⟨fun x hx => Or.inl hx, fun h2 => le_of_lt h2⟩
  | cons off rest ih =>
    intro acc res hres
    rw [daysLoop] at hres
    split_ifs at hres with hdow
    · cases hh : hoursLoop start { d0 with day := d0.day + (off : ℤ) } k hours acc with
      | error e =>
        rw [hh] at hres
        exact Except.noConfusion hres
      | ok p =>
        rcases p with ⟨acc2, b⟩
        rw [hh] at hres
        cases b with
        | true =>
          simp only [Except.ok.injEq] at hres
          subst hres
          obtain ⟨hmem, hle, -⟩ :=
            hoursLoop_sound start { d0 with day := d0.day + (off : ℤ) } k hours acc acc2
              true hh
          refine ⟨?_, hle⟩
          intro x hx
          rcases hmem x hx with hx2 | ⟨h, hm, hv1, hv2, hx3, hlt⟩
          · exact Or.inl hx2
          · exact Or.inr ⟨off, List.mem_cons_self _ _, h, hm, hv1, hv2, hx3, hlt, hdow⟩
        | false =>
          obtain ⟨hmem1, -, hflag⟩ :=
            hoursLoop_sound start { d0 with day := d0.day + (off : ℤ) } k hours acc acc2
              false hh
          obtain ⟨hmem2, hle2⟩ := ih acc2 res hres
          refine ⟨?_, fun hlen => hle2 (hflag hlen rfl)⟩
          intro x hx
          rcases hmem2 x hx with hx2 | ⟨off', hm', rest'⟩
          · rcases hmem1 x hx2 with hx3 | ⟨h, hm, hv1, hv2, hx4, hlt⟩
            · exact Or.inl hx3
            · exact Or.inr ⟨off, List.mem_cons_self _ _, h, hm, hv1, hv2, hx4, hlt, hdow⟩
          · exact Or.inr ⟨off', List.mem_cons_of_mem _ hm', rest'⟩
    · obtain ⟨hmem, hle⟩ := ih acc res hres
      refine ⟨?_, hle⟩
      intro x hx
      rcases hmem x hx with hx2 | ⟨off', hm', rest'⟩
      · exact Or.inl hx2
      · exact Or.inr ⟨off', List.mem_cons_of_mem _ hm', rest'⟩

/-- Counterexample to C9 as stated: with `k = 0` the search still returns
the first found slot, so the result has more than `k` elements. -/
theorem next_occurrences_at_most_k_counterexample :
    next_occurrences { day := 0, hour := 0, minute := 30, second := 0, micro := 0 }
        ["Sun"] [10] 0
      = .ok [{ day := 0, hour := 10, minute := 0, second := 0, micro := 0 }] ∧
    ¬ (([{ day := 0, hour := 10, minute := 0, second := 0, micro := 0 }] :
        List DT).length ≤ 0) :=
  ⟨rfl, by decide⟩

/-- C9 (amended): when `_next_occurrences` returns, it returns at most
`max k 1` datetimes (so at most `k` whenever `k ≥ 1`), each strictly later
than `start`, with minute, second and microsecond 0, hour drawn from the
hours list, weekday name in the day-of-week list, and date within 21 days
after `start`. -/
theorem next_occurrences_sound (start : DT) (dowList : List String) (hours : List ℤ)
    (k : ℕ) (res : List DT)
    (hres : next_occurrences start dowList hours k = .ok res) :
    res.length ≤ max k 1 ∧
    ∀ dt ∈ res, dtLtB start dt = true ∧ dt.minute = 0 ∧ dt.second = 0 ∧
      dt.micro = 0 ∧ dt.hour ∈ hours ∧ dowName dt ∈ dowList ∧
      start.day ≤ dt.day ∧ dt.day ≤ start.day + 21 := by
  obtain ⟨hmem, hle⟩ :=
    daysLoop_sound start { start with minute := 0, second := 0, micro := 0 } dowList
      hours k (List.range 22) [] res hres
  constructor
  · exact hle (lt_of_lt_of_le Nat.zero_lt_one (le_max_right k 1))
  · intro dt hdt
    rcases hmem dt hdt with hx | ⟨off, hoff, h, hh, hv1, hv2, hx3, hlt, hdow⟩
    · cases hx
    · subst hx3
      have hoff21 : off ≤ 21 := by
      -- `off ∈ List.range 22`
        have := List.mem_range.mp hoff
        omega
      have hcast : ((off : ℤ)) ≤ 21 := by exact_mod_cast hoff21
      have hcast0 : (0 : ℤ) ≤ (off : ℤ) := Int.natCast_nonneg off
      refine ⟨hlt, rfl, rfl, rfl, hh, hdow, ?_, ?_⟩ <;>
        · dsimp only
          omega

/-- A concrete start (ordinal 0 is a Sunday, 00:30 local). -/
def startW9 : DT := { day := 0, hour := 0, minute := 30, second := 0, micro := 0 }

/-- The four Sunday-10:00 slots found for `startW9` within 22 days. -/
def resW9 : List DT :=
  [{ day := 0, hour := 10, minute := 0, second := 0, micro := 0 },
   { day := 7, hour := 10, minute := 0, second := 0, micro := 0 },
   { day := 14, hour := 10, minute := 0, second := 0, micro := 0 },
   { day := 21, hour := 10, minute := 0, second := 0, micro := 0 }]

/-- Witness for C9 (amended) at `k = 6` on a concrete start. -/
theorem next_occurrences_sound_witness : resW9.length ≤ max 6 1 :=
  (next_occurrences_sound startW9 ["Sun"] [10] 6 resW9 (by rfl)).1

/-! ### generator/llm_client.py

`time.sleep` is latency only and has no effect on the returned string.
`_call_openai_chat` is an external effect, modelled as an oracle returning
`Except String String` (`.error` for a raised exception). -/

/-- Python slicing `s[:n]` over code points. -/
def pyTake (s : String) (n : ℕ) : String := String.mk (s.data.take n)

/-- Body of `_mock_generate` after `p = prompt.strip()`. -/
def mock_from_stripped (p : String) (kind : String) : String :=
  if kind = "title" then
    (if 60 < p.length then pyTake p 60 ++ "..." else p) ++ " — SEO Optimized Title"
  else if kind = "meta" then
    (if 140 < p.length then pyTake p 140 ++ "..." else p)
      ++ " — concise meta description for SEO."
  else if kind = "article" then
    "Intro: " ++ pyStrip (pyTake p 80) ++ "\n\n"
      ++ "This is a demo-generated article used for offline testing. Replace this with a real LLM API call.\n\n"
      ++ "H2: Key points\n- Tip 1\n- Tip 2\n\nConclusion: Short call to action."
  else "[MOCK OUTPUT] " ++ pyTake p 200

/-- Python `_mock_generate(prompt, kind)`. -/
def mock_generate (prompt : String) (kind : String) : String :=
  mock_from_stripped (pyStrip prompt) kind

/-- Truthiness of `OPENAI_API_KEY`: set and non-empty. -/
def keyTruthy : Option String → Bool
  | some s => !(s == "")
  | none => false

/-- Python `generate_from_prompt`: call the OpenAI oracle only when the SDK is
available and the key is truthy; fall back to the mock on exception; use the
mock directly otherwise. -/
def generate_from_prompt (available : Bool) (apiKey : Option String)
    (callOpenai : String → String → Except String String)
    (prompt : String) (kind : String) : String :=
  if available && keyTruthy apiKey then
    match callOpenai prompt kind with
    | .ok s => s
    | .error _ => mock_generate prompt kind
  else mock_generate prompt kind

/-- C10: when the SDK is unavailable or no key is configured,
`generate_from_prompt` returns the mock output, is independent of the
OpenAI oracle (so two calls with the same prompt and kind agree), never
raises (it is total by construction), and the mock output depends only on
the kind and the stripped prompt. -/
theorem mock_fallback_deterministic (available : Bool) (apiKey : Option String)
    (call₁ call₂ : String → String → Except String String) (prompt kind : String)
    (hno : available = false ∨ keyTruthy apiKey = false) :
    generate_from_prompt available apiKey call₁ prompt kind
      = mock_generate prompt kind ∧
    generate_from_prompt available apiKey call₁ prompt kind
      = generate_from_prompt available apiKey call₂ prompt kind ∧
    (∀ prompt₂, pyStrip prompt = pyStrip prompt₂ →
      mock_generate prompt kind = mock_generate prompt₂ kind) := by
  have hcond : (available && keyTruthy apiKey) = false := by
    rcases hno with h | h <;> simp [h]
  refine ⟨?_, ?_, ?_⟩
  · simp [generate_from_prompt, hcond]
  · simp [generate_from_prompt, hcond]
  · intro p2 hp
    unfold mock_generate
    rw [hp]

/-- Witness for C10: with the SDK unavailable, two oracles that answer
differently produce the same (mock) output. -/
theorem mock_fallback_deterministic_witness :
    generate_from_prompt false none (fun _ _ => .ok "llm answer") "Bakery" "title"
      = mock_generate "Bakery" "title" ∧
    generate_from_prompt false none (fun _ _ => .ok "llm answer") "Bakery" "title"
      = generate_from_prompt false none (fun _ _ => .error "down") "Bakery" "title" :=
  ⟨(mock_fallback_deterministic false none (fun _ _ => .ok "llm answer")
      (fun _ _ => .error "down") "Bakery" "title" (Or.inl rfl)).1,
   (mock_fallback_deterministic false none (fun _ _ => .ok "llm answer")
      (fun _ _ => .error "down") "Bakery" "title" (Or.inl rfl)).2.1⟩

end Seo
